import Mathlib

/-!
Shallow embedding of src/Documents/AsyncRunner.py: the ordered task runners
(OrderedRunner, BatchedOrderedRunner), the per-document facade
(DocumentBatchedOrderedRunner), the keyed registry (DocumentRunner) and the
synchronizers (AcknowledgeSyncer, BlockSyncer).

Tasks are modelled by the identity the code uses for them (the callable's
double-underscore name attribute) together with a flag saying whether
invoking or awaiting the task raises an exception.  The run loops are
modelled as functions from the queue contents to the sequence of observable
events (task starts/completions, synchronous batch invocations, handler
awaits, error logging, idle transitions); asyncio events are Booleans;
a raised Python exception is the `raised` constructor of `PyResult`.
-/

namespace AsyncRunner

/-- A task submitted to a runner: `name` is the identity the code uses
(the function object's name attribute, used for batch-key matching and for
`queued()` diagnostics); `fails` says whether invoking/awaiting the task
raises an exception. -/
structure Task where
  name : String
  fails : Bool
deriving DecidableEq, Repr

/-- Observable events of a runner's loop. -/
inductive Ev where
  /-- OrderedRunner loop set `current` to the task's name and began awaiting it. -/
  | start (name : String)
  /-- the awaited task returned normally. -/
  | finish (name : String)
  /-- an exception escaped a task into the loop's except block and was logged
  (`logger.error`), after which the loop continues (OrderedRunner). -/
  | errLog (name : String)
  /-- BatchedOrderedRunner invoked a batchable operation synchronously (not awaited). -/
  | syncInvoke (name : String)
  /-- BatchedOrderedRunner awaited the batch handler registered for `name`. -/
  | awaitHandler (name : String)
  /-- BatchedOrderedRunner awaited a non-batchable task to completion. -/
  | awaitTask (name : String)
  /-- DocumentBatchedOrderedRunner wrapper awaited the facade's own handler
  (handlers of the facade are identified by a numeric id). -/
  | awaitHandlerId (h : Nat)
  /-- the loop set the finish event and cleared the sync event: runner idle. -/
  | idle
  /-- OrderedRunner: an exception was caught with the queue already empty; the
  loop retries `pop(0)` on the empty queue forever (IndexError each time),
  never reaching the idle transition. -/
  | stuckSpin
  /-- an exception escaped a task into the except block of
  BatchedOrderedRunner (before any logging could happen). -/
  | excRaised (name : String)
  /-- the except block itself raised (BatchedOrderedRunner refers to the
  nonexistent attribute `logger` instead of its private logger field), so the
  exception escaped the while loop and the loop coroutine died. -/
  | loopCrashed
deriving DecidableEq, Repr

/-- Result of a Python call: either a normal return or a raised exception,
identified by the exception's class name. -/
inductive PyResult (α : Type) where
  | ok (a : α)
  | raised (exc : String)
deriving DecidableEq, Repr

/-! ## OrderedRunner run loop (lines 149-175)

One drain cycle of `OrderedRunner.__run`, for the queue contents at the
moment the sync event is observed.  The loop pops the front task, records
its name in `current`, awaits it, and repeats until the queue is empty, then
sets the finish event and clears the sync event (`Ev.idle`).  An exception
raised by a task propagates to the except block at the loop boundary, is
logged, and the `while True` loop re-enters: the sync event is still set, so
the loop pops the next task and continues; if the queue is already empty the
`pop(0)` itself raises IndexError, which is again caught, forever
(`Ev.stuckSpin`). -/

/-- Event trace of one drain cycle of `OrderedRunner.__run` over the queue. -/
def ordDrain : List Task → List Ev
  | [] => [Ev.idle]
  | t :: rest =>
    if t.fails then
      Ev.start t.name :: Ev.errLog t.name ::
        (match rest with
         | [] => [Ev.stuckSpin]
         | _ :: _ => ordDrain rest)
    else
      Ev.start t.name :: Ev.finish t.name :: ordDrain rest

/-- Internal queue state of an OrderedRunner: the private task list and the
`current` field. -/
structure ORunnerSt where
  tasks : List Task
  current : String
deriving DecidableEq, Repr

/-- Line 158/163: pop the front task from the queue and record its name in
`current`; `none` when the queue is empty. -/
def popTask (st : ORunnerSt) : Option ORunnerSt :=
  match st.tasks with
  | [] => none
  | t :: rest => some { tasks := rest, current := t.name }

/-- Iterate `popTask` n times. -/
def iterPop : ORunnerSt → Nat → Option ORunnerSt
  | st, 0 => some st
  | st, n + 1 =>
    match popTask st with
    | none => none
    | some st2 => iterPop st2 n

/-- The runner's internal state while the loop is awaiting the i-th submitted
task (0-based) of a drain cycle that started with queue `q`: i+1 pops have
happened, the last of which installed task i as `current`. -/
def execState (q : List Task) (i : Nat) : Option ORunnerSt :=
  iterPop { tasks := q, current := "" } (i + 1)

/-- OrderedRunner.queued (lines 183-185): the names of the tasks in the
private queue. -/
def queuedSt (st : ORunnerSt) : List String :=
  st.tasks.map (fun t => t.name)

/-! ## BatchedOrderedRunner run loop (lines 241-299)

The drain cycle differs from OrderedRunner only in the inner step: when the
popped task's name has a registered batch handler, the loop invokes it
synchronously (without awaiting) and keeps popping and invoking further
tasks while their name matches, then awaits the handler once, and resumes
the outer loop with the already-popped non-matching task, if any.  The
handler table is modelled by the predicate `reg` on task names (the claims
need only membership; the handlers themselves carry no arguments). -/

mutual

/-- Event trace of one drain cycle of BatchedOrderedRunner.__run (lines
256-292) over the queue, when no task raises: the outer while loop, one
step per popped task.  A task whose name is in the handler table is invoked
synchronously and hands over to the inner batching loop (`batchGo`); any
other task is awaited normally; an empty queue ends the cycle with the
idle transition. -/
def batchDrain (reg : String → Bool) : List Task → List Ev
  | [] => [Ev.idle]
  | t :: rest =>
    if reg t.name then Ev.syncInvoke t.name :: batchGo reg t.name rest
    else Ev.awaitTask t.name :: batchDrain reg rest
termination_by l => (l.length, 0)

/-- The inner batching loop (lines 265-280) after at least one synchronous
invocation of a task named `cur`: keep popping and synchronously invoking
tasks while their name equals `cur`; on the first non-matching popped task
(or an emptied queue) await the handler for `cur` exactly once, then resume
the outer loop with the already-popped task that broke the run, if any. -/
def batchGo (reg : String → Bool) (cur : String) : List Task → List Ev
  | [] => [Ev.awaitHandler cur, Ev.idle]
  | t :: rest =>
    if t.name = cur then Ev.syncInvoke t.name :: batchGo reg cur rest
    else Ev.awaitHandler cur :: batchDrain reg (t :: rest)
termination_by l => (l.length, 1)

end

/-! ## BatchedOrderedRunner with raising tasks (lines 295-296)

When a task raises, the exception reaches the except block, whose first
statement reads the attribute `logger` on self; the class only defines the
private field accessed as `self.__logger` inside methods, so this read
itself raises AttributeError.  That second exception escapes the while loop
and the loop coroutine dies: nothing is logged and no further queued task is
ever executed. -/

mutual

/-- One drain cycle over the queue with raising tasks: same loop structure
as `batchDrain`, but any exception escaping a task invocation or await
reaches the except block, which itself raises AttributeError and kills the
loop coroutine; nothing after the failing task runs.  The handlers are
assumed not to raise. -/
def batchDrainF (reg : String → Bool) : List Task → List Ev
  | [] => [Ev.idle]
  | t :: rest =>
    if reg t.name then
      if t.fails then [Ev.excRaised t.name, Ev.loopCrashed]
      else Ev.syncInvoke t.name :: batchGoF reg t.name rest
    else
      if t.fails then [Ev.excRaised t.name, Ev.loopCrashed]
      else Ev.awaitTask t.name :: batchDrainF reg rest
termination_by l => (l.length, 0)

/-- The inner batching loop with raising synchronous invocations. -/
def batchGoF (reg : String → Bool) (cur : String) : List Task → List Ev
  | [] => [Ev.awaitHandler cur, Ev.idle]
  | t :: rest =>
    if t.name = cur then
      if t.fails then [Ev.excRaised t.name, Ev.loopCrashed]
      else Ev.syncInvoke t.name :: batchGoF reg cur rest
    else Ev.awaitHandler cur :: batchDrainF reg (t :: rest)
termination_by l => (l.length, 1)

end

/-! ## DocumentBatchedOrderedRunner facade (lines 315-362) -/

/-- Python dict lookup for a string-keyed table built by assignment,
modelled as cons-to-front with first-match lookup (later assignment for the
same key shadows the earlier one, as dict assignment overwrites). -/
def dictGet : List (String × Nat) → String → Option Nat
  | [], _ => none
  | (k, v) :: rest, key => if k = key then some v else dictGet rest key

/-- The facade's own state: only the private batch handler table (handlers
are identified by numeric ids standing for the stored callables); the shared
underlying runner is supplied at construction and identified separately. -/
structure DocumentBatchedOrderedRunner where
  batchHandler : List (String × Nat)
deriving DecidableEq, Repr

/-- registerBatchHandler (lines 324-325): store batchFnc under fncName. -/
def registerBatchHandler (f : DocumentBatchedOrderedRunner) (fncName : String)
    (batchFnc : Nat) : DocumentBatchedOrderedRunner :=
  { f with batchHandler := (fncName, batchFnc) :: f.batchHandler }

/-- The value a facade submits to the shared underlying runner: either the
original function unchanged, or the synthesized wrapper closure capturing
the function and the facade's handler. -/
inductive Submitted where
  | plain (t : Task)
  | wrapper (t : Task) (handler : Nat)
deriving DecidableEq, Repr

/-- DocumentBatchedOrderedRunner.run (lines 328-343): if the function's name
is in the facade's own table, submit a wrapper capturing the function and
the handler; otherwise submit the function unchanged. -/
def facadeRun (f : DocumentBatchedOrderedRunner) (t : Task) : Submitted :=
  match dictGet f.batchHandler t.name with
  | some handler => .wrapper t handler
  | none => .plain t

/-- Execution trace of the synthesized wrapper (lines 336-338): invoke fnc
synchronously (not awaited), then await the facade's handler. -/
def wrapperExec (t : Task) (handler : Nat) : List Ev :=
  [Ev.syncInvoke t.name, Ev.awaitHandlerId handler]

/-! ## Synchronizers (lines 38-87) -/

/-- asyncio.wait_for applied to an event wait: returns normally if the event
becomes set within the bound, otherwise raises TimeoutError. -/
def asyncioWaitFor (completesWithinTimeout : Bool) : PyResult Unit :=
  if completesWithinTimeout then .ok () else .raised "TimeoutError"

/-- AcknowledgeSyncer state: the remaining count and the asyncio event. -/
structure AcknowledgeSyncer where
  count : Int
  event : Bool
deriving DecidableEq, Repr

/-- AcknowledgeSyncer construction (lines 43-45). -/
def AcknowledgeSyncer.init (num : Int) : AcknowledgeSyncer :=
  { count := num, event := false }

/-- AcknowledgeSyncer.excecute, spelling as in the source (lines 47-50):
decrement the count and set the event once it is at most zero. -/
def AcknowledgeSyncer.excecute (s : AcknowledgeSyncer) : AcknowledgeSyncer :=
  let c := s.count - 1
  { count := c, event := if c ≤ 0 then true else s.event }

/-- State of an AcknowledgeSyncer constructed with num after k excecute calls. -/
def AcknowledgeSyncer.excecuteN (num : Int) (k : Nat) : AcknowledgeSyncer :=
  Nat.iterate AcknowledgeSyncer.excecute k (AcknowledgeSyncer.init num)

/-- waitAllAchnowledge, spelling as in the source (lines 52-53), observed at
the moment the bound expires with the syncer in state s: wait_for returns
normally iff the event is set by then; the TimeoutError it raises otherwise
is not caught and propagates to the external waiter. -/
def AcknowledgeSyncer.waitAllAchnowledge (s : AcknowledgeSyncer) : PyResult Unit :=
  asyncioWaitFor s.event

/-- BlockSyncer state: the single asyncio event, starting unset (line 60). -/
structure BlockSyncer where
  event : Bool
deriving DecidableEq, Repr

/-- BlockSyncer construction (lines 59-60). -/
def BlockSyncer.init : BlockSyncer := { event := false }

/-- The operations of BlockSyncer. -/
inductive BlockOp where
  | excecute
  | restart
  | asyncRestart
deriving DecidableEq, Repr

/-- State effect of each BlockSyncer method (lines 62-69): excecute only
awaits the event and mutates nothing; restart sets the event; asyncRestart
calls restart.  No method ever clears the event. -/
def BlockSyncer.step (s : BlockSyncer) : BlockOp → BlockSyncer
  | .excecute => s
  | .restart => { event := true }
  | .asyncRestart => { event := true }

/-- Apply a sequence of BlockSyncer operations. -/
def BlockSyncer.runOps (s : BlockSyncer) (ops : List BlockOp) : BlockSyncer :=
  ops.foldl BlockSyncer.step s

/-- Completion condition of the await inside excecute (lines 62-63):
event.wait() returns iff the event is set; while it is unset the calling
runner stays suspended at this await. -/
def BlockSyncer.excecuteCompletes (s : BlockSyncer) : Bool := s.event

/-! ## DocumentRunner registry (lines 90-109)

The class-level dicts mapping a document id to its underlying OrderedRunner,
one for the sender and one for the receiver direction.  Runner objects are
modelled by allocation ids: each OrderedRunner constructor call yields a
fresh id, so two ids are equal exactly when they denote the same underlying
runner object. -/

abbrev RunnerId := Nat

/-- The registry's class-level state: the two dicts plus the allocation
counter standing for object creation. -/
structure DocumentRunnerSt where
  sender : List (String × RunnerId)
  receiver : List (String × RunnerId)
  nextId : RunnerId
deriving DecidableEq, Repr

/-- Initial state: both class attributes start as empty dicts (lines 94-95). -/
def DocumentRunnerSt.empty : DocumentRunnerSt :=
  { sender := [], receiver := [], nextId := 0 }

/-- getSenderRunner (lines 97-102): create and store the underlying
OrderedRunner for docId if absent, then wrap the stored runner in a fresh
DocumentBatchedOrderedRunner facade.  The returned id identifies the
underlying runner the returned facade wraps. -/
def getSenderRunner (st : DocumentRunnerSt) (docId : String) :
    RunnerId × DocumentRunnerSt :=
  match dictGet st.sender docId with
  | some r => (r, st)
  | none =>
    (st.nextId,
     { st with sender := (docId, st.nextId) :: st.sender, nextId := st.nextId + 1 })

/-- getReceiverRunner (lines 104-109): same on the receiver dict. -/
def getReceiverRunner (st : DocumentRunnerSt) (docId : String) :
    RunnerId × DocumentRunnerSt :=
  match dictGet st.receiver docId with
  | some r => (r, st)
  | none =>
    (st.nextId,
     { st with receiver := (docId, st.nextId) :: st.receiver, nextId := st.nextId + 1 })

/-- A registry call: which accessor and with which document id. -/
inductive RegOp where
  | getSender (docId : String)
  | getReceiver (docId : String)
deriving DecidableEq, Repr

/-- Apply one registry call. -/
def applyRegOp (st : DocumentRunnerSt) : RegOp → RunnerId × DocumentRunnerSt
  | .getSender d => getSenderRunner st d
  | .getReceiver d => getReceiverRunner st d

/-- Apply a sequence of registry calls, keeping the final state. -/
def runRegOps (st : DocumentRunnerSt) : List RegOp → DocumentRunnerSt
  | [] => st
  | o :: os => runRegOps (applyRegOp st o).2 os

/-- The document id of a registry call. -/
def RegOp.key : RegOp → String
  | .getSender d => d
  | .getReceiver d => d

/-- The role of a registry call: true for sender, false for receiver. -/
def RegOp.role : RegOp → Bool
  | .getSender _ => true
  | .getReceiver _ => false

/-- Well-formedness of a registry state: every stored runner id was
allocated below the counter, and no id is stored twice, within a dict or
across the two dicts (each OrderedRunner constructor call yields a distinct
object). -/
def regWF (st : DocumentRunnerSt) : Prop :=
  (∀ v ∈ st.sender.map Prod.snd, v < st.nextId) ∧
  (∀ v ∈ st.receiver.map Prod.snd, v < st.nextId) ∧
  (st.sender.map Prod.snd ++ st.receiver.map Prod.snd).Nodup

/-- The dict a role reads: the sender dict for true, the receiver dict for
false. -/
def roleDict (role : Bool) (st : DocumentRunnerSt) : List (String × RunnerId) :=
  if role then st.sender else st.receiver

/-! ## Closeout and lifecycle (lines 128-147, 177-180) -/

/-- The record logged by waitTillCloseout on timeout (line 134): whether the
loop task is not done, the current task name, and the queued names. -/
structure CloseoutLog where
  stillWorking : Bool
  current : String
  remaining : List String
deriving DecidableEq, Repr

/-- OrderedRunner.waitTillCloseout (lines 128-134): await
wait_for(finishEvent.wait(), timeout) inside a try block; TimeoutError is
caught and the runner state is logged; any other exception would propagate,
but wait_for raises nothing else here.  The first argument abstracts whether
the finish event is set before the bound elapses; the rest is the state read
by the logging statement. -/
def waitTillCloseout (finishWithinTimeout : Bool) (stillWorking : Bool)
    (current : String) (queue : List Task) : PyResult (Option CloseoutLog) :=
  match asyncioWaitFor finishWithinTimeout with
  | .ok _ => .ok none
  | .raised e =>
    if e = "TimeoutError" then
      .ok (some { stillWorking := stillWorking, current := current,
                  remaining := queue.map (fun t => t.name) })
    else
      .raised e

/-- Whole-runner observable state of an OrderedRunner for the lifecycle
claims: the queue, the two asyncio events, and whether the loop coroutine is
still alive (maintask not cancelled). -/
structure ORunner where
  tasks : List Task
  syncEvent : Bool
  finishEvent : Bool
  loopAlive : Bool
deriving DecidableEq, Repr

/-- OrderedRunner.run (lines 177-180): append the task and set the sync
event; there is no closed-state check and no failure path, so the call
always returns normally whatever the runner state. -/
def ORunner.run (r : ORunner) (t : Task) : PyResult ORunner :=
  .ok { r with tasks := r.tasks ++ [t], syncEvent := true }

/-- OrderedRunner.close (lines 137-147), acting on the state left after the
initial waitTillCloseout: cancel the loop task (swallowing the
CancelledError) and set the finish event unconditionally. -/
def ORunner.close (r : ORunner) : ORunner :=
  { r with loopAlive := false, finishEvent := true }

/-- Tasks are executed only by the loop coroutine started at construction
(line 125): when it has been cancelled, no drain cycle runs and the trace is
empty, whatever the queue holds; while it is alive, a set sync event makes
it drain the queue. -/
def ORunner.loopEvents (r : ORunner) : List Ev :=
  if r.loopAlive && r.syncEvent then ordDrain r.tasks else []

/-! ## Helper lemmas -/

theorem iterPop_eq (q : List Task) :
    ∀ (c : String) (i : Nat) (h : i < q.length),
      iterPop { tasks := q, current := c } (i + 1) =
        some { tasks := q.drop (i + 1), current := (q.get ⟨i, h⟩).name } := by
  induction q with
  | nil => intro c i h; exact absurd h (by simp)
  | cons t rest ih =>
    intro c i h
    have hstep : iterPop { tasks := t :: rest, current := c } (i + 1) =
        iterPop { tasks := rest, current := t.name } i := by
      simp [iterPop, popTask]
    cases i with
    | zero => simp [hstep, iterPop, popTask]
    | succ j =>
      have hj : j < rest.length := Nat.lt_of_succ_lt_succ (by simpa using h)
      rw [hstep, ih t.name j hj]
      simp

theorem batchGo_replicate_break (reg : String → Bool) (X Y : Task)
    (rest : List Task) (hne : Y.name ≠ X.name) :
    ∀ k : Nat, batchGo reg X.name (List.replicate k X ++ Y :: rest) =
      List.replicate k (Ev.syncInvoke X.name) ++
        Ev.awaitHandler X.name :: batchDrain reg (Y :: rest) := by
  intro k
  induction k with
  | zero => simp [batchGo, hne]
  | succ m ih => simp [List.replicate_succ, batchGo, ih]

theorem batchGo_replicate_end (reg : String → Bool) (X : Task) :
    ∀ k : Nat, batchGo reg X.name (List.replicate k X) =
      List.replicate k (Ev.syncInvoke X.name) ++
        [Ev.awaitHandler X.name, Ev.idle] := by
  intro k
  induction k with
  | zero => simp [batchGo]
  | succ m ih => simp [List.replicate_succ, batchGo, ih]

theorem excecuteN_spec (n : Int) : ∀ k : Nat,
    (AcknowledgeSyncer.excecuteN n k).count = n - k ∧
    ((AcknowledgeSyncer.excecuteN n k).event = true ↔
      (1 ≤ k ∧ n ≤ (k : Int))) := by
  intro k
  induction k with
  | zero =>
    simp [AcknowledgeSyncer.excecuteN, AcknowledgeSyncer.init]
  | succ m ih =>
    obtain ⟨ihc, ihe⟩ := ih
    have hstep : AcknowledgeSyncer.excecuteN n (m + 1) =
        AcknowledgeSyncer.excecute (AcknowledgeSyncer.excecuteN n m) := by
      simp [AcknowledgeSyncer.excecuteN, Function.iterate_succ_apply']
    rw [hstep]
    constructor
    · simp [AcknowledgeSyncer.excecute, ihc]
      push_cast
      ring
    · simp only [AcknowledgeSyncer.excecute, ihc]
      by_cases hle : n - m - 1 ≤ 0
      · simp [hle]
        push_cast
        omega
      · simp [hle, ihe]
        push_cast
        omega

theorem blockRunOps_event_mono (ops : List BlockOp) :
    ∀ s : BlockSyncer, s.event = true →
      (BlockSyncer.runOps s ops).event = true := by
  induction ops with
  | nil => intro s hs; simpa [BlockSyncer.runOps] using hs
  | cons op rest ih =>
    intro s hs
    have hstep : (BlockSyncer.step s op).event = true := by
      cases op <;> simp [BlockSyncer.step, hs]
    simpa [BlockSyncer.runOps] using ih (BlockSyncer.step s op) hstep

theorem dictGet_mem (key : String) (v : Nat) :
    ∀ l : List (String × Nat), dictGet l key = some v → v ∈ l.map Prod.snd := by
  intro l
  induction l with
  | nil => intro h; simp [dictGet] at h
  | cons p rest ih =>
    intro h
    obtain ⟨k2, v2⟩ := p
    rw [dictGet] at h
    by_cases hk : k2 = key
    · rw [if_pos hk] at h
      have : v2 = v := by simpa using h
      simp [this]
    · rw [if_neg hk] at h
      simp only [List.map_cons]
      exact List.mem_cons_of_mem _ (ih h)

theorem dictGet_ne_of_ne_key (k1 k2 : String) (v1 v2 : Nat) (hk : k1 ≠ k2) :
    ∀ l : List (String × Nat), (l.map Prod.snd).Nodup →
      dictGet l k1 = some v1 → dictGet l k2 = some v2 → v1 ≠ v2 := by
  intro l
  induction l with
  | nil => intro _ h1 _; simp [dictGet] at h1
  | cons p rest ih =>
    intro hnd h1 h2
    obtain ⟨k, v⟩ := p
    rw [dictGet] at h1 h2
    simp only [List.map_cons, List.nodup_cons] at hnd
    obtain ⟨hvnotin, hndrest⟩ := hnd
    by_cases hk1 : k = k1
    · rw [if_pos hk1] at h1
      have hv1 : v = v1 := by simpa using h1
      have hk2 : ¬ k = k2 := by rw [hk1]; exact hk
      rw [if_neg hk2] at h2
      intro hcontra
      exact hvnotin (by rw [hv1, hcontra]; exact dictGet_mem k2 v2 rest h2)
    · rw [if_neg hk1] at h1
      by_cases hk2 : k = k2
      · rw [if_pos hk2] at h2
        have hv2 : v = v2 := by simpa using h2
        intro hcontra
        exact hvnotin (by rw [hv2, ← hcontra]; exact dictGet_mem k1 v1 rest h1)
      · rw [if_neg hk2] at h2
        exact ih hndrest h1 h2

theorem regWF_empty : regWF DocumentRunnerSt.empty := by
  refine ⟨by simp [DocumentRunnerSt.empty], by simp [DocumentRunnerSt.empty],
    by simp [DocumentRunnerSt.empty]⟩

theorem regWF_applyRegOp (st : DocumentRunnerSt) (o : RegOp) (hwf : regWF st) :
    regWF (applyRegOp st o).2 := by
  obtain ⟨hs, hr, hnd⟩ := hwf
  have hfresh : ∀ v ∈ st.sender.map Prod.snd ++ st.receiver.map Prod.snd,
      v < st.nextId := by
    intro v hv
    rcases List.mem_append.mp hv with hv | hv
    · exact hs v hv
    · exact hr v hv
  cases o with
  | getSender d =>
    rcases hdg : dictGet st.sender d with _ | r
    · simp only [applyRegOp, getSenderRunner, hdg]
      refine ⟨?_, ?_, ?_⟩
      · intro v hv
        simp only [List.map_cons, List.mem_cons] at hv
        rcases hv with rfl | hv
        · exact Nat.lt_succ_self st.nextId
        · exact Nat.lt_succ_of_lt (hs v hv)
      · intro v hv
        exact Nat.lt_succ_of_lt (hr v hv)
      · simp only [List.map_cons, List.cons_append, List.nodup_cons]
        refine ⟨fun hmem => ?_, hnd⟩
        exact absurd (hfresh _ hmem) (lt_irrefl st.nextId)
    · simp only [applyRegOp, getSenderRunner, hdg]
      exact ⟨hs, hr, hnd⟩
  | getReceiver d =>
    rcases hdg : dictGet st.receiver d with _ | r
    · simp only [applyRegOp, getReceiverRunner, hdg]
      refine ⟨?_, ?_, ?_⟩
      · intro v hv
        exact Nat.lt_succ_of_lt (hs v hv)
      · intro v hv
        simp only [List.map_cons, List.mem_cons] at hv
        rcases hv with rfl | hv
        · exact Nat.lt_succ_self st.nextId
        · exact Nat.lt_succ_of_lt (hr v hv)
      · simp only [List.map_cons]
        rw [List.nodup_middle]
        refine List.nodup_cons.mpr ⟨fun hmem => ?_, hnd⟩
        exact absurd (hfresh _ hmem) (lt_irrefl st.nextId)
    · simp only [applyRegOp, getReceiverRunner, hdg]
      exact ⟨hs, hr, hnd⟩

theorem regWF_runRegOps :
    ∀ (ops : List RegOp) (st : DocumentRunnerSt), regWF st →
      regWF (runRegOps st ops) := by
  intro ops
  induction ops with
  | nil => intro st h; simpa [runRegOps] using h
  | cons o os ih =>
    intro st h
    exact ih _ (regWF_applyRegOp st o h)

theorem dictGet_roleDict_stable (b : Bool) (d : String) (r : RunnerId)
    (st : DocumentRunnerSt) (o : RegOp)
    (h : dictGet (roleDict b st) d = some r) :
    dictGet (roleDict b (applyRegOp st o).2) d = some r := by
  cases b <;> cases o <;> simp only [roleDict, if_pos, if_neg, Bool.false_eq_true,
    if_false, if_true, applyRegOp] at h ⊢
  case false.getSender d2 =>
    rcases hdg : dictGet st.sender d2 with _ | r2 <;>
      simp only [getSenderRunner, hdg] <;> exact h
  case false.getReceiver d2 =>
    rcases hdg : dictGet st.receiver d2 with _ | r2
    · simp only [getReceiverRunner, hdg]
      rw [dictGet]
      have hne : ¬ d2 = d := by
        intro he
        rw [he, h] at hdg
        cases hdg
      rw [if_neg hne]
      exact h
    · simp only [getReceiverRunner, hdg]
      exact h
  case true.getSender d2 =>
    rcases hdg : dictGet st.sender d2 with _ | r2
    · simp only [getSenderRunner, hdg]
      rw [dictGet]
      have hne : ¬ d2 = d := by
        intro he
        rw [he, h] at hdg
        cases hdg
      rw [if_neg hne]
      exact h
    · simp only [getSenderRunner, hdg]
      exact h
  case true.getReceiver d2 =>
    rcases hdg : dictGet st.receiver d2 with _ | r2 <;>
      simp only [getReceiverRunner, hdg] <;> exact h

theorem dictGet_roleDict_stable_runOps (b : Bool) (d : String) (r : RunnerId) :
    ∀ (ops : List RegOp) (st : DocumentRunnerSt),
      dictGet (roleDict b st) d = some r →
      dictGet (roleDict b (runRegOps st ops)) d = some r := by
  intro ops
  induction ops with
  | nil => intro st h; simpa [runRegOps] using h
  | cons o os ih =>
    intro st h
    exact ih _ (dictGet_roleDict_stable b d r st o h)

theorem applyRegOp_self_lookup (st : DocumentRunnerSt) (o : RegOp) :
    dictGet (roleDict o.role (applyRegOp st o).2) o.key =
      some (applyRegOp st o).1 := by
  cases o with
  | getSender d =>
    rcases hdg : dictGet st.sender d with _ | r <;>
      simp [applyRegOp, getSenderRunner, hdg, RegOp.role, RegOp.key, roleDict,
        dictGet]
  | getReceiver d =>
    rcases hdg : dictGet st.receiver d with _ | r <;>
      simp [applyRegOp, getReceiverRunner, hdg, RegOp.role, RegOp.key, roleDict,
        dictGet]

theorem applyRegOp_found_or_fresh (st : DocumentRunnerSt) (o : RegOp) :
    dictGet (roleDict o.role st) o.key = some (applyRegOp st o).1 ∨
    (dictGet (roleDict o.role st) o.key = none ∧
      (applyRegOp st o).1 = st.nextId) := by
  cases o with
  | getSender d =>
    rcases hdg : dictGet st.sender d with _ | r
    · right
      simp [applyRegOp, getSenderRunner, hdg, RegOp.role, RegOp.key, roleDict]
    · left
      simp [applyRegOp, getSenderRunner, hdg, RegOp.role, RegOp.key, roleDict]
  | getReceiver d =>
    rcases hdg : dictGet st.receiver d with _ | r
    · right
      simp [applyRegOp, getReceiverRunner, hdg, RegOp.role, RegOp.key, roleDict]
    · left
      simp [applyRegOp, getReceiverRunner, hdg, RegOp.role, RegOp.key, roleDict]

theorem dictGet_roleDict_lt_nextId (b : Bool) (st : DocumentRunnerSt)
    (d : String) (r : RunnerId) (hwf : regWF st)
    (h : dictGet (roleDict b st) d = some r) : r < st.nextId := by
  obtain ⟨hs, hr, hnd⟩ := hwf
  cases b
  · exact hr r (dictGet_mem d r _ (by simpa [roleDict] using h))
  · exact hs r (dictGet_mem d r _ (by simpa [roleDict] using h))

theorem dictGet_roleDict_distinct (st : DocumentRunnerSt) (hwf : regWF st)
    (b1 b2 : Bool) (d1 d2 : String) (r1 r2 : RunnerId)
    (h1 : dictGet (roleDict b1 st) d1 = some r1)
    (h2 : dictGet (roleDict b2 st) d2 = some r2)
    (hdiff : b1 ≠ b2 ∨ d1 ≠ d2) : r1 ≠ r2 := by
  obtain ⟨hs, hr, hnd⟩ := hwf
  rcases hdiff with hb | hd
  · have hdisj := List.disjoint_of_nodup_append hnd
    cases b1
    · cases b2
      · exact absurd rfl hb
      · intro hcontra
        subst hcontra
        exact hdisj (dictGet_mem d2 r1 _ (by simpa [roleDict] using h2))
          (dictGet_mem d1 r1 _ (by simpa [roleDict] using h1))
    · cases b2
      · intro hcontra
        subst hcontra
        exact hdisj (dictGet_mem d1 r1 _ (by simpa [roleDict] using h1))
          (dictGet_mem d2 r1 _ (by simpa [roleDict] using h2))
      · exact absurd rfl hb
  · by_cases hb : b1 = b2
    · subst hb
      cases b1
      · exact dictGet_ne_of_ne_key d1 d2 r1 r2 hd _ hnd.of_append_right
          (by simpa [roleDict] using h1) (by simpa [roleDict] using h2)
      · exact dictGet_ne_of_ne_key d1 d2 r1 r2 hd _ hnd.of_append_left
          (by simpa [roleDict] using h1) (by simpa [roleDict] using h2)
    · -- reduce to the different-role case handled above
      have hdisj := List.disjoint_of_nodup_append hnd
      cases b1
      · cases b2
        · exact absurd rfl hb
        · intro hcontra
          subst hcontra
          exact hdisj (dictGet_mem d2 r1 _ (by simpa [roleDict] using h2))
            (dictGet_mem d1 r1 _ (by simpa [roleDict] using h1))
      · cases b2
        · intro hcontra
          subst hcontra
          exact hdisj (dictGet_mem d1 r1 _ (by simpa [roleDict] using h1))
            (dictGet_mem d2 r1 _ (by simpa [roleDict] using h2))
        · exact absurd rfl hb

/-! ## Claim theorems -/

/-- C1: for every sequence of tasks submitted to a single OrderedRunner
(which has no batch handler mechanism at all), the drain cycle awaits the
tasks one at a time in exactly submission (FIFO) order: the trace is the
concatenation of one start event immediately followed by one completion
event per task, in queue order, so no task starts before the previous one
has completed, and the runner goes idle at the end. -/
theorem c1_ordered_runner_fifo (q : List Task) (hok : ∀ t ∈ q, t.fails = false) :
    ordDrain q =
      (q.flatMap fun t => [Ev.start t.name, Ev.finish t.name]) ++ [Ev.idle] := by
  induction q with
  | nil => simp [ordDrain]
  | cons t rest ih =>
    have ht : t.fails = false := hok t (List.mem_cons_self t rest)
    have ih2 := ih (fun t2 ht2 => hok t2 (List.mem_cons_of_mem t ht2))
    simp [ordDrain, ht, ih2]

/-- Witness for C1 at a concrete three-task queue. -/
theorem c1_ordered_runner_fifo_witness :
    ordDrain [⟨"a", false⟩, ⟨"b", false⟩, ⟨"c", false⟩] =
      [Ev.start "a", Ev.finish "a", Ev.start "b", Ev.finish "b",
       Ev.start "c", Ev.finish "c", Ev.idle] :=
  (c1_ordered_runner_fifo [⟨"a", false⟩, ⟨"b", false⟩, ⟨"c", false⟩]
    (by decide)).trans (by decide)

/-- C9: while the loop is executing the i-th submitted task of a drain
cycle, the internal queue holds exactly the tasks submitted after it (the
executing task was popped at line 158/163 before being awaited), so
queued() returns the identities of the still-waiting tasks in FIFO order;
in particular, when the submitted identities are pairwise distinct, the
identity of the currently executing task is never among them. -/
theorem c9_queued_excludes_current (q : List Task) (i : Nat) (h : i < q.length) :
    execState q i =
      some { tasks := q.drop (i + 1), current := (q.get ⟨i, h⟩).name } ∧
    queuedSt { tasks := q.drop (i + 1), current := (q.get ⟨i, h⟩).name } =
      (q.drop (i + 1)).map (fun t => t.name) ∧
    ((q.map fun t => t.name).Nodup →
      (q.get ⟨i, h⟩).name ∉ (q.drop (i + 1)).map (fun t => t.name)) := by
  refine ⟨iterPop_eq q "" i h, rfl, ?_⟩
  intro hnd hmem
  rw [List.map_drop] at hmem
  obtain ⟨k, hk⟩ := List.mem_iff_get.mp hmem
  have hlen : (i + 1) + k.1 < (q.map fun t => t.name).length := by
    have := k.2
    simp only [List.length_drop] at this
    omega
  have hget : ((q.map fun t => t.name).drop (i + 1)).get k =
      (q.map fun t => t.name).get ⟨(i + 1) + k.1, hlen⟩ := by
    simp [List.get_drop]
  have hi : i < (q.map fun t => t.name).length := by simpa using h
  have hnames : (q.map fun t => t.name).get ⟨i, hi⟩ = (q.get ⟨i, h⟩).name := by
    simp
  have heq : (q.map fun t => t.name).get ⟨(i + 1) + k.1, hlen⟩ =
      (q.map fun t => t.name).get ⟨i, hi⟩ := by
    rw [← hget, hk, hnames]
  have hinj := List.nodup_iff_injective_get.mp hnd heq
  have : (i + 1) + k.1 = i := congrArg Fin.val hinj
  omega

/-- C2: in a BatchedOrderedRunner drain, a maximal contiguous run of n
tasks of a handler-registered identity X at the front of the queue is
invoked synchronously task by task, followed by exactly one await of the
handler, after which the loop continues with the task that broke the run;
a run ending the queue likewise gets exactly one handler await before the
idle transition.  In particular submitting X,X,X then Y yields three
synchronous X invocations, one handler await, then one await of Y, and
submitting X,Y,X yields two handler awaits with Y awaited between them. -/
theorem c2_batching_contiguous_runs (reg : String → Bool) (X Y : Task)
    (rest : List Task) (n : Nat) (hn : 0 < n) (hreg : reg X.name = true)
    (hne : Y.name ≠ X.name) :
    (batchDrain reg (List.replicate n X ++ Y :: rest) =
      List.replicate n (Ev.syncInvoke X.name) ++
        Ev.awaitHandler X.name :: batchDrain reg (Y :: rest)) ∧
    (batchDrain reg (List.replicate n X) =
      List.replicate n (Ev.syncInvoke X.name) ++
        [Ev.awaitHandler X.name, Ev.idle]) ∧
    (batchDrain (fun s => s == "x")
        [⟨"x", false⟩, ⟨"x", false⟩, ⟨"x", false⟩, ⟨"y", false⟩] =
      [Ev.syncInvoke "x", Ev.syncInvoke "x", Ev.syncInvoke "x",
       Ev.awaitHandler "x", Ev.awaitTask "y", Ev.idle]) ∧
    (batchDrain (fun s => s == "x")
        [⟨"x", false⟩, ⟨"y", false⟩, ⟨"x", false⟩] =
      [Ev.syncInvoke "x", Ev.awaitHandler "x", Ev.awaitTask "y",
       Ev.syncInvoke "x", Ev.awaitHandler "x", Ev.idle]) := by
  obtain ⟨m, rfl⟩ : ∃ m, n = m + 1 := ⟨n - 1, by omega⟩
  refine ⟨?_, ?_, ?_, ?_⟩
  · rw [List.replicate_succ, List.cons_append, batchDrain, if_pos hreg,
      batchGo_replicate_break reg X Y rest hne m]
    simp [List.replicate_succ]
  · rw [List.replicate_succ, batchDrain, if_pos hreg,
      batchGo_replicate_end reg X m]
    simp [List.replicate_succ]
  · simp [batchDrain, batchGo]
  · simp [batchDrain, batchGo]

/-- Witness for C2 at the spec's concrete scenario (n = 3, identities x
and y). -/
theorem c2_batching_contiguous_runs_witness :
    batchDrain (fun s => s == "x")
        (List.replicate 3 ⟨"x", false⟩ ++ ⟨"y", false⟩ :: []) =
      List.replicate 3 (Ev.syncInvoke "x") ++
        Ev.awaitHandler "x" :: batchDrain (fun s => s == "x") [⟨"y", false⟩] :=
  (c2_batching_contiguous_runs (fun s => s == "x") ⟨"x", false⟩ ⟨"y", false⟩
    [] 3 (by decide) (by decide) (by decide)).1

/-- Witness for C9 at a concrete queue and position. -/
theorem c9_queued_excludes_current_witness :
    execState [⟨"a", false⟩, ⟨"b", false⟩, ⟨"c", false⟩] 1 =
        some { tasks := [⟨"c", false⟩], current := "b" } ∧
      queuedSt { tasks := [⟨"c", false⟩], current := "b" } = ["c"] ∧
      "b" ∉ ["c"] := by
  have hlen : 1 < ([⟨"a", false⟩, ⟨"b", false⟩, ⟨"c", false⟩] : List Task).length := by
    decide
  have hmain := c9_queued_excludes_current
    [⟨"a", false⟩, ⟨"b", false⟩, ⟨"c", false⟩] 1 hlen
  refine ⟨?_, by decide, ?_⟩
  · have h1 := hmain.1
    simpa using h1
  · have h3 := hmain.2.2 (by decide)
    simpa using h3

/-- C3: for every run(fnc, args) on a DocumentBatchedOrderedRunner, if
fnc's identity is registered in the facade's own batch handler table the
facade submits to the shared underlying runner a wrapper that first invokes
fnc synchronously and then awaits the facade's handler; if the identity is
not registered the facade submits fnc unchanged; and an identity just
registered via registerBatchHandler is submitted wrapped with that handler. -/
theorem c3_facade_wraps_registered (f : DocumentBatchedOrderedRunner)
    (t : Task) (handler : Nat) :
    (dictGet f.batchHandler t.name = some handler →
      facadeRun f t = Submitted.wrapper t handler ∧
      wrapperExec t handler = [Ev.syncInvoke t.name, Ev.awaitHandlerId handler]) ∧
    (dictGet f.batchHandler t.name = none → facadeRun f t = Submitted.plain t) ∧
    facadeRun (registerBatchHandler f t.name handler) t =
      Submitted.wrapper t handler := by
  refine ⟨fun hh => ⟨?_, rfl⟩, fun hh => ?_, ?_⟩
  · simp [facadeRun, hh]
  · simp [facadeRun, hh]
  · simp [facadeRun, registerBatchHandler, dictGet]

/-- Witness for C3 on a concrete facade table. -/
theorem c3_facade_wraps_registered_witness :
    facadeRun { batchHandler := [("x", 7)] } ⟨"x", false⟩ =
        Submitted.wrapper ⟨"x", false⟩ 7 ∧
      wrapperExec ⟨"x", false⟩ 7 = [Ev.syncInvoke "x", Ev.awaitHandlerId 7] ∧
      facadeRun { batchHandler := [("x", 7)] } ⟨"y", false⟩ =
        Submitted.plain ⟨"y", false⟩ := by
  have h1 := (c3_facade_wraps_registered { batchHandler := [("x", 7)] }
    ⟨"x", false⟩ 7).1 (by decide)
  have h2 := (c3_facade_wraps_registered { batchHandler := [("x", 7)] }
    ⟨"y", false⟩ 7).2.1 (by decide)
  exact ⟨h1.1, h1.2, h2⟩

/-- C4, evaluated at the failing input.  In OrderedRunner a raising task is
caught at the loop boundary, logged, and the next queued task still runs;
but in BatchedOrderedRunner the except block itself evaluates the attribute
named logger, which does not exist (the field is the name-mangled private
logger), so it raises AttributeError, the loop coroutine dies, nothing is
logged, and the task submitted after the failing one is never executed —
contradicting the claim for BatchedOrderedRunner. -/
theorem c4_batched_except_block_kills_loop :
    ordDrain [⟨"bad", true⟩, ⟨"good", false⟩] =
      [Ev.start "bad", Ev.errLog "bad", Ev.start "good", Ev.finish "good",
       Ev.idle] ∧
    batchDrainF (fun _ => false) [⟨"bad", true⟩, ⟨"good", false⟩] =
      [Ev.excRaised "bad", Ev.loopCrashed] ∧
    Ev.awaitTask "good" ∉
      batchDrainF (fun _ => false) [⟨"bad", true⟩, ⟨"good", false⟩] ∧
    ∀ s, Ev.errLog s ∉
      batchDrainF (fun _ => false) [⟨"bad", true⟩, ⟨"good", false⟩] := by
  have htrace : batchDrainF (fun _ => false) [⟨"bad", true⟩, ⟨"good", false⟩] =
      [Ev.excRaised "bad", Ev.loopCrashed] := by
    simp [batchDrainF]
  refine ⟨by simp [ordDrain], htrace, ?_, ?_⟩
  · rw [htrace]; simp
  · intro s; rw [htrace]; simp

/-- C5: waitTillCloseout never raises: when the finish event is not set
within the bound, the TimeoutError of wait_for is caught and the runner's
state (loop liveness, current task, remaining queued identities) is logged
and the call returns; when the runner reaches idle within the bound the
call returns with nothing logged. -/
theorem c5_closeout_timeout_swallowed (finishWithinTimeout stillWorking : Bool)
    (current : String) (queue : List Task) :
    (waitTillCloseout false stillWorking current queue =
      PyResult.ok (some { stillWorking := stillWorking, current := current,
                          remaining := queue.map (fun t => t.name) })) ∧
    (waitTillCloseout true stillWorking current queue = PyResult.ok none) ∧
    (∀ e : String,
      waitTillCloseout finishWithinTimeout stillWorking current queue ≠
        PyResult.raised e) := by
  refine ⟨by simp [waitTillCloseout, asyncioWaitFor], rfl, ?_⟩
  intro e
  cases finishWithinTimeout <;> simp [waitTillCloseout, asyncioWaitFor]

/-- C6 counterexample: the claim fails for count 0 (and any count below 1):
with 0 excecute calls the latch is unasserted although excecute has been
called at least 0 times, because the event is only ever set inside
excecute. -/
theorem c6_zero_count_counterexample :
    (AcknowledgeSyncer.excecuteN 0 0).event = false ∧
      (0 : Int) ≤ ((0 : Nat) : Int) := by
  exact ⟨rfl, le_refl 0⟩

/-- C6 as amended: for a count of at least 1 (the latch needs at least one
excecute call whatever the count, since it is only set inside excecute),
the latch is asserted exactly when excecute has been called at least n
times; a waitAllAchnowledge caller whose bound expires with at least n
calls made returns normally, and with fewer than n calls the TimeoutError
of wait_for is raised to the external waiter rather than swallowed. -/
theorem c6_acknowledge_latch (n : Int) (hn : 1 ≤ n) (k : Nat) :
    ((AcknowledgeSyncer.excecuteN n k).event = true ↔ n ≤ (k : Int)) ∧
    (n ≤ (k : Int) →
      (AcknowledgeSyncer.excecuteN n k).waitAllAchnowledge = PyResult.ok ()) ∧
    ((k : Int) < n →
      (AcknowledgeSyncer.excecuteN n k).waitAllAchnowledge =
        PyResult.raised "TimeoutError") := by
  obtain ⟨hc, he⟩ := excecuteN_spec n k
  have hiff : (AcknowledgeSyncer.excecuteN n k).event = true ↔ n ≤ (k : Int) := by
    rw [he]
    constructor
    · exact fun h => h.2
    · intro h
      exact ⟨by omega, h⟩
  refine ⟨hiff, fun h => ?_, fun h => ?_⟩
  · simp [AcknowledgeSyncer.waitAllAchnowledge, asyncioWaitFor, hiff.mpr h]
  · have : ¬ (AcknowledgeSyncer.excecuteN n k).event = true := by
      rw [hiff]; omega
    simp only [Bool.not_eq_true] at this
    simp [AcknowledgeSyncer.waitAllAchnowledge, asyncioWaitFor, this]

/-- Witness for C6 at the spec's concrete scenario (count 3, released after
3 calls, timed out after 2). -/
theorem c6_acknowledge_latch_witness :
    (AcknowledgeSyncer.excecuteN 3 3).waitAllAchnowledge = PyResult.ok () ∧
    (AcknowledgeSyncer.excecuteN 3 2).waitAllAchnowledge =
      PyResult.raised "TimeoutError" :=
  ⟨(c6_acknowledge_latch 3 (by norm_num) 3).2.1 (by norm_num),
   (c6_acknowledge_latch 3 (by norm_num) 2).2.2 (by norm_num)⟩

/-- C7: no BlockSyncer operation ever clears the latch (each method either
leaves the event alone or sets it); the event starts unset, so an excecute
arriving before restart stays suspended (its await completes only once the
event is set); restart asserts the event, releasing every suspended
excecute; and after restart, whatever operations follow, the event is still
set, so any later excecute completes immediately without blocking. -/
theorem c7_block_syncer_oneshot (s : BlockSyncer) (op : BlockOp)
    (ops : List BlockOp) :
    (s.event = true → (s.step op).event = true) ∧
    BlockSyncer.init.event = false ∧
    BlockSyncer.excecuteCompletes s = s.event ∧
    (s.step BlockOp.restart).event = true ∧
    BlockSyncer.excecuteCompletes
      (BlockSyncer.runOps (s.step BlockOp.restart) ops) = true := by
  refine ⟨fun hs => ?_, rfl, rfl, rfl, ?_⟩
  · cases op <;> simp [BlockSyncer.step, hs]
  · exact blockRunOps_event_mono ops _ rfl

/-- Witness for C7 at a concrete instance and operation sequence. -/
theorem c7_block_syncer_oneshot_witness :
    ({ event := true } : BlockSyncer).step BlockOp.excecute =
        ({ event := true } : BlockSyncer) ∧
      BlockSyncer.excecuteCompletes
        (BlockSyncer.runOps (BlockSyncer.init.step BlockOp.restart)
          [BlockOp.excecute, BlockOp.excecute]) = true := by
  have h := c7_block_syncer_oneshot BlockSyncer.init BlockOp.excecute
    [BlockOp.excecute, BlockOp.excecute]
  exact ⟨rfl, h.2.2.2.2⟩

/-- C10: after close() on an OrderedRunner, run(fnc, args) still returns
normally, appends the task to the queue and sets the sync event; but the
loop coroutine has been cancelled so the appended task is never executed;
and waitTillCloseout returns immediately without logging despite the
pending task, because close forced the finish event set. -/
theorem c10_run_after_close (r : ORunner) (t : Task) (stillWorking : Bool)
    (current : String) :
    ORunner.run (ORunner.close r) t =
      PyResult.ok { tasks := r.tasks ++ [t], syncEvent := true,
                    finishEvent := true, loopAlive := false } ∧
    ORunner.loopEvents { tasks := r.tasks ++ [t], syncEvent := true,
                         finishEvent := true, loopAlive := false } = [] ∧
    waitTillCloseout
        ({ tasks := r.tasks ++ [t], syncEvent := true, finishEvent := true,
           loopAlive := false } : ORunner).finishEvent
        stillWorking current (r.tasks ++ [t]) = PyResult.ok none := by
  exact ⟨rfl, by simp [ORunner.loopEvents], rfl⟩

/-- C8: starting from the empty registry, after any call history ops0, a
call o1 returns the id r1 of the underlying OrderedRunner its facade wraps;
after any further history, a later call returns that same underlying runner
exactly when it has the same key and the same role — same key and role
always yields r1 again, while a different key or a different role never
does.  When o1's key is not yet in its role's dict, the call stores the
freshly constructed runner (the allocation counter's id) and advances the
counter. -/
theorem c8_registry_sharing (ops0 more : List RegOp) (o1 o2 : RegOp) :
    ((o1.role = o2.role ∧ o1.key = o2.key) →
      (applyRegOp (runRegOps (applyRegOp (runRegOps DocumentRunnerSt.empty ops0)
          o1).2 more) o2).1 =
        (applyRegOp (runRegOps DocumentRunnerSt.empty ops0) o1).1) ∧
    (¬ (o1.role = o2.role ∧ o1.key = o2.key) →
      (applyRegOp (runRegOps (applyRegOp (runRegOps DocumentRunnerSt.empty ops0)
          o1).2 more) o2).1 ≠
        (applyRegOp (runRegOps DocumentRunnerSt.empty ops0) o1).1) ∧
    (dictGet (roleDict o1.role (runRegOps DocumentRunnerSt.empty ops0)) o1.key
        = none →
      (applyRegOp (runRegOps DocumentRunnerSt.empty ops0) o1).1 =
        (runRegOps DocumentRunnerSt.empty ops0).nextId ∧
      (applyRegOp (runRegOps DocumentRunnerSt.empty ops0) o1).2.nextId =
        (runRegOps DocumentRunnerSt.empty ops0).nextId + 1) := by
  have hwfA : regWF (runRegOps DocumentRunnerSt.empty ops0) :=
    regWF_runRegOps ops0 _ regWF_empty
  have hwf2 : regWF (runRegOps (applyRegOp (runRegOps DocumentRunnerSt.empty
      ops0) o1).2 more) :=
    regWF_runRegOps more _ (regWF_applyRegOp _ o1 hwfA)
  have hl1 := applyRegOp_self_lookup (runRegOps DocumentRunnerSt.empty ops0) o1
  have hl2 := dictGet_roleDict_stable_runOps o1.role o1.key
    (applyRegOp (runRegOps DocumentRunnerSt.empty ops0) o1).1 more _ hl1
  refine ⟨?_, ?_, ?_⟩
  · rintro ⟨hrole, hkey⟩
    rcases applyRegOp_found_or_fresh (runRegOps (applyRegOp
        (runRegOps DocumentRunnerSt.empty ops0) o1).2 more) o2 with
      hfound | ⟨hnone, hval⟩
    · rw [← hrole, ← hkey, hl2] at hfound
      exact (Option.some.inj hfound).symm
    · rw [← hrole, ← hkey, hl2] at hnone
      cases hnone
  · intro hdiff
    rcases applyRegOp_found_or_fresh (runRegOps (applyRegOp
        (runRegOps DocumentRunnerSt.empty ops0) o1).2 more) o2 with
      hfound | ⟨hnone, hval⟩
    · refine dictGet_roleDict_distinct _ hwf2 o2.role o1.role o2.key o1.key
        _ _ hfound hl2 ?_
      by_cases hb : o1.role = o2.role
      · right
        intro hk
        exact hdiff ⟨hb, hk.symm⟩
      · left
        exact fun he => hb he.symm
    · have hlt := dictGet_roleDict_lt_nextId o1.role _ o1.key _ hwf2 hl2
      rw [hval]
      exact Nat.ne_of_gt hlt
  · intro hnone
    cases o1 with
    | getSender d =>
      have hn : dictGet (runRegOps DocumentRunnerSt.empty ops0).sender d
          = none := by
        simpa [roleDict, RegOp.role, RegOp.key] using hnone
      constructor <;> simp [applyRegOp, getSenderRunner, hn]
    | getReceiver d =>
      have hn : dictGet (runRegOps DocumentRunnerSt.empty ops0).receiver d
          = none := by
        simpa [roleDict, RegOp.role, RegOp.key] using hnone
      constructor <;> simp [applyRegOp, getReceiverRunner, hn]

/-- Witness for C8 at concrete keys doc1 and doc2. -/
theorem c8_registry_sharing_witness :
    (applyRegOp (runRegOps (applyRegOp (runRegOps DocumentRunnerSt.empty [])
        (RegOp.getSender "doc1")).2 []) (RegOp.getSender "doc1")).1 =
      (applyRegOp (runRegOps DocumentRunnerSt.empty [])
        (RegOp.getSender "doc1")).1 ∧
    (applyRegOp (runRegOps (applyRegOp (runRegOps DocumentRunnerSt.empty [])
        (RegOp.getSender "doc1")).2 []) (RegOp.getReceiver "doc1")).1 ≠
      (applyRegOp (runRegOps DocumentRunnerSt.empty [])
        (RegOp.getSender "doc1")).1 ∧
    (applyRegOp (runRegOps (applyRegOp (runRegOps DocumentRunnerSt.empty [])
        (RegOp.getSender "doc1")).2 []) (RegOp.getSender "doc2")).1 ≠
      (applyRegOp (runRegOps DocumentRunnerSt.empty [])
        (RegOp.getSender "doc1")).1 :=
  ⟨(c8_registry_sharing [] [] (RegOp.getSender "doc1")
      (RegOp.getSender "doc1")).1 ⟨rfl, rfl⟩,
   (c8_registry_sharing [] [] (RegOp.getSender "doc1")
      (RegOp.getReceiver "doc1")).2.1 (by decide),
   (c8_registry_sharing [] [] (RegOp.getSender "doc1")
      (RegOp.getSender "doc2")).2.1 (by decide)⟩

end AsyncRunner
